import Mathlib

/-! Verification of the token-lifecycle subsystem of the recruitment-platform
backend: the `/auth/register`, `/auth/login`, `/auth/refresh` and
`/auth/logout` route handlers, modelled as pure state-transition functions
over an explicit Credential Store.  Time is milliseconds since epoch
(`Date.now()`); random secrets (`crypto.randomBytes`) are supplied as oracle
arguments; the SHA-256 digest and the password-hashing primitive are
abstract function parameters, exactly as the routes treat them. -/

namespace AuthCore

/-- A user record as stored by the Credential Store (Prisma `User`).
Profile fields the handlers never branch on (bio, timestamps,
verification flag) are omitted; `role` is kept because the handlers read
it when signing access tokens. -/
structure User where
  id : Nat
  email : String
  hashedPassword : String
  name : String
  role : String
  lastLoginAt : Option Nat
  deriving Repr, DecidableEq

/-- A refresh-token record (Prisma `RefreshToken`): `tokenHash` holds the
SHA-256 digest of the secret; the secret itself never appears. -/
structure RefreshTokenRecord where
  id : Nat
  tokenHash : String
  userId : Nat
  expiresAt : Nat
  revoked : Bool
  ip : Option String
  userAgent : Option String
  deriving Repr, DecidableEq

/-- The Credential Store state shared by all handlers, with the id
counters the database would supply on insertion. -/
structure Store where
  users : List User
  refreshTokens : List RefreshTokenRecord
  nextUserId : Nat
  nextTokenId : Nat
  deriving Repr, DecidableEq

/-- Modelled from the spec: the Token Codec module (`utils/jwt`, not part
of the provided sources) issues a signed token embedding the subject id
and the role claim (spec §4.1).  Only the embedded claims matter here, so
the token is its claims. -/
structure AccessToken where
  sub : Nat
  role : String
  deriving Repr, DecidableEq

/-- The function `signAccessToken(userId, role)` from `utils/jwt`; modelled from the
spec as embedding exactly the subject and role it is given. -/
def signAccessToken (userId : Nat) (role : String) : AccessToken :=
  ⟨userId, role⟩

/-- Process-wide configuration: `REFRESH_TOKEN_EXP_DAYS`, `none` when no
TTL is configured in the environment. -/
structure Env where
  refreshTokenExpDays : Option Nat
  deriving Repr, DecidableEq

def msPerDay : Nat := 24 * 60 * 60 * 1000

/-- Request body of `/auth/register` plus the request metadata the handler
captures.  A field absent from the JSON body is the empty string (both
`undefined` and `""` are falsy under the handler's presence check). -/
structure RegisterReq where
  email : String
  password : String
  name : String
  ip : Option String
  userAgent : Option String
  deriving Repr, DecidableEq

/-- Request body of `/auth/login` plus captured request metadata. -/
structure LoginReq where
  email : String
  password : String
  ip : Option String
  userAgent : Option String
  deriving Repr, DecidableEq

/-- Request metadata captured by `/auth/refresh`. -/
structure ReqMeta where
  ip : Option String
  userAgent : Option String
  deriving Repr, DecidableEq

/-- Outcome of `/auth/register`: an HTTP failure (status, message) or the
201 response; on success the handler surfaces the access token, the fresh
refresh secret (via cookie) and the new user's id. -/
inductive RegisterResult where
  | failure (status : Nat) (message : String)
  | success (accessToken : AccessToken) (refreshSecret : String) (userId : Nat)
  deriving Repr, DecidableEq

/-- Outcome of `/auth/login`. -/
inductive LoginResult where
  | failure (status : Nat) (message : String)
  | success (accessToken : AccessToken) (refreshSecret : String) (userId : Nat)
  deriving Repr, DecidableEq

/-- Outcome of `/auth/refresh`. -/
inductive RefreshResult where
  | failure (status : Nat) (message : String)
  | success (accessToken : AccessToken) (newRefreshSecret : String)
  deriving Repr, DecidableEq

/-- Spec §7 taxonomy: `InvalidToken` covers an unknown / revoked /
already-rotated secret.  The handler reports it as 401 with one of the two
messages below (no-match lookup, and lost conditional write). -/
def RefreshResult.isInvalidToken : RefreshResult → Bool
  | .failure 401 msg =>
      msg == "Invalid refresh token" || msg == "Invalid or already rotated refresh token"
  | _ => false

/-- The user record `prisma.user.create` inserts during registration:
the request's email, the password digest, the request's name, and the
database default for the role column. -/
def mkUser (hashPw : String → String) (defaultRole : String)
    (req : RegisterReq) (uid : Nat) : User :=
  { id := uid, email := req.email, hashedPassword := hashPw req.password,
    name := req.name, role := defaultRole, lastLoginAt := none }

/-- Handler for `POST /auth/register`. `sha256` is `crypto.createHash('sha256')` as a
function, `hashPw` the argon2 `hashPassword`, `defaultRole` the database
default for `User.role` (the Prisma schema is not among the provided
sources), `freshSecret` the `crypto.randomBytes(40)` oracle. -/
def register (sha256 hashPw : String → String) (defaultRole : String)
    (env : Env) (now : Nat) (freshSecret : String) (req : RegisterReq)
    (s : Store) : RegisterResult × Store :=
  if req.email.isEmpty || req.password.isEmpty || req.name.isEmpty then
    (.failure 400 "Email, password, and name are required", s)
  else
    match s.users.find? (fun u => u.email == req.email) with
    | some _ => (.failure 409 "User already exists with the email", s)
    | none =>
      let newUser : User := mkUser hashPw defaultRole req s.nextUserId
      let accessToken := signAccessToken newUser.id "user"
      let tokenRecord : RefreshTokenRecord :=
        { id := s.nextTokenId, tokenHash := sha256 freshSecret,
          userId := newUser.id,
          expiresAt := now + (env.refreshTokenExpDays.getD 30) * msPerDay,
          revoked := false, ip := req.ip, userAgent := req.userAgent }
      (.success accessToken freshSecret newUser.id,
       { users := s.users ++ [newUser],
         refreshTokens := s.refreshTokens ++ [tokenRecord],
         nextUserId := s.nextUserId + 1, nextTokenId := s.nextTokenId + 1 })

/-- Handler for `POST /auth/login`. `verifyPw digest password` is the argon2
`verifyPassword`. -/
def login (sha256 : String → String) (verifyPw : String → String → Bool)
    (env : Env) (now : Nat) (freshSecret : String) (req : LoginReq)
    (s : Store) : LoginResult × Store :=
  if req.email.isEmpty || req.password.isEmpty then
    (.failure 400 "Email and password are required", s)
  else
    match s.users.find? (fun u => u.email == req.email) with
    | none => (.failure 401 "Invalid email or password", s)
    | some user =>
      if verifyPw user.hashedPassword req.password then
        let accessToken := signAccessToken user.id user.role
        let tokenRecord : RefreshTokenRecord :=
          { id := s.nextTokenId, tokenHash := sha256 freshSecret,
            userId := user.id,
            expiresAt := now + (env.refreshTokenExpDays.getD 7) * msPerDay,
            revoked := false, ip := req.ip, userAgent := req.userAgent }
        (.success accessToken freshSecret user.id,
         { users := s.users.map (fun u =>
             if u.id == user.id then { u with lastLoginAt := some now } else u),
           refreshTokens := s.refreshTokens ++ [tokenRecord],
           nextUserId := s.nextUserId, nextTokenId := s.nextTokenId + 1 })
      else
        (.failure 401 "Invalid email or password", s)

/-- The conditional rotation write: `prisma.refreshToken.updateMany` keyed
on the record's id, its current token hash, and `revoked = false`; returns
the affected-record count together with the updated store. -/
def rotateWrite (recId : Nat) (tokenHash newHash : String) (newExpiresAt : Nat)
    (meta : ReqMeta) (s : Store) : Nat × Store :=
  ((s.refreshTokens.filter (fun r =>
      r.id == recId && r.tokenHash == tokenHash && r.revoked == false)).length,
   { s with refreshTokens := s.refreshTokens.map (fun r =>
       if r.id == recId && r.tokenHash == tokenHash && r.revoked == false then
         { r with tokenHash := newHash, expiresAt := newExpiresAt,
                  ip := meta.ip, userAgent := meta.userAgent }
       else r) })

/-- Handler for `POST /auth/refresh`, with the `findFirst` lookup running against
`sFind` and the subsequent store write running against `sWrite`: the two
store accesses are separate round-trips, and a concurrent request may
change the store in between.  The sequential execution is
`refresh`, where both are the same store. -/
def refreshAt (sha256 : String → String) (env : Env) (now : Nat)
    (freshSecret : String) (rt : Option String) (meta : ReqMeta)
    (sFind sWrite : Store) : RefreshResult × Store :=
  match rt with
  | none => (.failure 401 "No refresh token", sWrite)
  | some tok =>
    let tokenHash := sha256 tok
    match sFind.refreshTokens.find? (fun r =>
        r.tokenHash == tokenHash && r.revoked == false) with
    | none => (.failure 401 "Invalid refresh token", sWrite)
    | some found =>
      match sFind.users.find? (fun u => u.id == found.userId) with
      | none => (.failure 401 "Invalid refresh token", sWrite)
      | some user =>
        if found.expiresAt ≤ now then
          (.failure 401 "Refresh token expired",
           { sWrite with refreshTokens := sWrite.refreshTokens.map (fun r =>
               if r.id == found.id then { r with revoked := true } else r) })
        else
          let expDays := env.refreshTokenExpDays.getD 7
          let rotated := rotateWrite found.id tokenHash (sha256 freshSecret)
            (now + expDays * msPerDay) meta sWrite
          if rotated.1 == 0 then
            (.failure 401 "Invalid or already rotated refresh token", rotated.2)
          else
            (.success (signAccessToken user.id user.role) freshSecret, rotated.2)

/-- Handler for `POST /auth/refresh` executed without interference. -/
def refresh (sha256 : String → String) (env : Env) (now : Nat)
    (freshSecret : String) (rt : Option String) (meta : ReqMeta)
    (s : Store) : RefreshResult × Store :=
  refreshAt sha256 env now freshSecret rt meta s s

/-- Handler for `POST /auth/logout`: revokes every non-revoked record matching the
presented secret's digest (when a cookie is present) and always answers
200. -/
def logout (sha256 : String → String) (rt : Option String) (s : Store) :
    (Nat × String) × Store :=
  ((200, "Logged out successfully"),
   match rt with
   | none => s
   | some tok =>
     { s with refreshTokens := s.refreshTokens.map (fun r =>
         if r.tokenHash == sha256 tok && r.revoked == false then
           { r with revoked := true }
         else r) })

/-! Concrete fixtures used to evaluate the handlers on closed inputs. -/

/-- An injective stand-in digest for concrete evaluations. -/
def shaT : String → String := fun x => "h:" ++ x

def hashPwT : String → String := fun x => "p:" ++ x

def verifyPwT : String → String → Bool := fun d pw => d == "p:" ++ pw

def userA : User :=
  { id := 1, email := "a@x.com", hashedPassword := "p:pw", name := "A",
    role := "admin", lastLoginAt := none }

def storeA : Store :=
  { users := [userA], refreshTokens := [], nextUserId := 2, nextTokenId := 1 }

def recA : RefreshTokenRecord :=
  { id := 5, tokenHash := shaT "S0", userId := 1, expiresAt := 1000,
    revoked := false, ip := none, userAgent := none }

def storeR : Store :=
  { users := [userA], refreshTokens := [recA], nextUserId := 2, nextTokenId := 6 }

def metaT : ReqMeta := ⟨none, none⟩

def envNone : Env := ⟨none⟩

/-- The code's minimum password policy: the presence check
(`!password`, i.e. the password must be non-empty). -/
def passwordMeetsPolicy (p : String) : Bool := !p.isEmpty

/-- Case folding of a string, character by character (used only to state
that two emails agree up to letter case). -/
def lowerStr (s : String) : String := ⟨s.data.map Char.toLower⟩

/-- A constant digest, used to witness that the store output depends on
the fresh secret only through its digest. -/
def shaConst : String → String := fun _ => "d"

/-- The secrets presented along a refresh chain in the concrete witness:
step `n` presents `"S" ++ toString n`. -/
def chainSecretsW : Nat → String := fun n => "S" ++ toString n

/-- Run `n` successive refresh calls: step `i` (0-based) presents the
secret `secrets i`, mints `secrets (i + 1)`, and runs at time
`t0 + i * d`. -/
def refreshChain (sha256 : String → String) (env : Env)
    (secrets : Nat → String) (t0 d : Nat) (meta : ReqMeta) :
    Nat → Store → Option Store
  | 0, s => some s
  | n + 1, s =>
    match refreshChain sha256 env secrets t0 d meta n s with
    | none => none
    | some s' =>
      match refresh sha256 env (t0 + n * d) (secrets (n + 1))
          (some (secrets n)) meta s' with
      | (.success _ _, s₂) => some s₂
      | _ => none

/-- The single refresh-token record after `n` steps of a refresh chain
that started from record `r0`. -/
def chainRecord (sha256 : String → String) (env : Env)
    (secrets : Nat → String) (t0 d : Nat) (meta : ReqMeta)
    (r0 : RefreshTokenRecord) : Nat → RefreshTokenRecord
  | 0 => r0
  | n + 1 =>
    { r0 with
      tokenHash := sha256 (secrets (n + 1)),
      expiresAt := t0 + n * d + (env.refreshTokenExpDays.getD 7) * msPerDay,
      ip := meta.ip, userAgent := meta.userAgent }

/-! Helper lemmas. -/

theorem eq_of_mem_of_length_le_one {α : Type} {l : List α} {a b : α}
    (h : l.length ≤ 1) (ha : a ∈ l) (hb : b ∈ l) : a = b := by
  match l with
  | [] => cases ha
  | [x] =>
    rw [List.mem_singleton] at ha hb
    rw [ha, hb]
  | x :: y :: t => simp at h

/-- Registering against a store that already holds a user with exactly the
requested email fails with 409 Conflict and leaves the store unchanged. -/
theorem register_conflict_of_mem
    (sha256 hashPw : String → String) (defaultRole : String) (env : Env)
    (now : Nat) (freshSecret : String) (req : RegisterReq) (s : Store)
    (hEmail : req.email.isEmpty = false) (hPw : req.password.isEmpty = false)
    (hName : req.name.isEmpty = false)
    (hMem : ∃ u ∈ s.users, u.email = req.email) :
    register sha256 hashPw defaultRole env now freshSecret req s =
      (.failure 409 "User already exists with the email", s) := by
  obtain ⟨u, hu, he⟩ := hMem
  rcases hf : s.users.find? (fun v => v.email == req.email) with _ | w
  · exact absurd (by simpa using List.find?_eq_none.mp hf u hu) (by simp [he])
  · simp [register, hEmail, hPw, hName, hf]

/-- Inversion of a successful registration. -/
theorem register_success_inv
    (sha256 hashPw : String → String) (defaultRole : String) (env : Env)
    (now : Nat) (freshSecret : String) (req : RegisterReq) (s : Store)
    (tok : AccessToken) (sec : String) (uid : Nat) (s₁ : Store)
    (h : register sha256 hashPw defaultRole env now freshSecret req s =
      (.success tok sec uid, s₁)) :
    (req.email.isEmpty || req.password.isEmpty || req.name.isEmpty) = false ∧
    s.users.find? (fun v => v.email == req.email) = none ∧
    tok = signAccessToken s.nextUserId "user" ∧ sec = freshSecret ∧
    uid = s.nextUserId ∧
    s₁ = { users := s.users ++ [mkUser hashPw defaultRole req s.nextUserId],
           refreshTokens := s.refreshTokens ++
             [{ id := s.nextTokenId, tokenHash := sha256 freshSecret,
                userId := s.nextUserId,
                expiresAt := now + (env.refreshTokenExpDays.getD 30) * msPerDay,
                revoked := false, ip := req.ip, userAgent := req.userAgent }],
           nextUserId := s.nextUserId + 1,
           nextTokenId := s.nextTokenId + 1 } := by
  unfold register at h
  split at h
  next hb => simp at h
  next hb =>
    split at h
    next w hf => simp at h
    next hf =>
      rw [Prod.mk.injEq] at h
      obtain ⟨hres, hstore⟩ := h
      cases hres
      exact ⟨by simpa using hb, hf, rfl, rfl, rfl, hstore.symm⟩

/-- Inversion of a successful login. -/
theorem login_success_inv
    (sha256 : String → String) (verifyPw : String → String → Bool)
    (env : Env) (now : Nat) (freshSecret : String) (req : LoginReq)
    (s : Store) (tok : AccessToken) (sec : String) (uid : Nat) (s₁ : Store)
    (h : login sha256 verifyPw env now freshSecret req s =
      (.success tok sec uid, s₁)) :
    (req.email.isEmpty || req.password.isEmpty) = false ∧
    ∃ u, s.users.find? (fun v => v.email == req.email) = some u ∧
      verifyPw u.hashedPassword req.password = true ∧
      tok = signAccessToken u.id u.role ∧ sec = freshSecret ∧ uid = u.id ∧
      s₁ = { users := s.users.map (fun v =>
               if v.id == u.id then { v with lastLoginAt := some now } else v),
             refreshTokens := s.refreshTokens ++
               [{ id := s.nextTokenId, tokenHash := sha256 freshSecret,
                  userId := u.id,
                  expiresAt := now + (env.refreshTokenExpDays.getD 7) * msPerDay,
                  revoked := false, ip := req.ip, userAgent := req.userAgent }],
             nextUserId := s.nextUserId, nextTokenId := s.nextTokenId + 1 } := by
  unfold login at h
  split at h
  next hb => simp at h
  next hb =>
    split at h
    next hf => simp at h
    next u hf =>
      split at h
      next hv =>
        rw [Prod.mk.injEq] at h
        obtain ⟨hres, hstore⟩ := h
        cases hres
        exact ⟨by simpa using hb, u, hf, hv, rfl, rfl, rfl, hstore.symm⟩
      next hv => simp at h

/-- Inversion of a successful (possibly interleaved) refresh. -/
theorem refreshAt_success_inv
    (sha256 : String → String) (env : Env) (now : Nat)
    (freshSecret rtok : String) (meta : ReqMeta) (sFind sWrite : Store)
    (tok : AccessToken) (sec : String) (s₁ : Store)
    (h : refreshAt sha256 env now freshSecret (some rtok) meta sFind sWrite =
      (.success tok sec, s₁)) :
    ∃ found user,
      sFind.refreshTokens.find? (fun r =>
        r.tokenHash == sha256 rtok && r.revoked == false) = some found ∧
      sFind.users.find? (fun v => v.id == found.userId) = some user ∧
      now < found.expiresAt ∧
      (rotateWrite found.id (sha256 rtok) (sha256 freshSecret)
        (now + (env.refreshTokenExpDays.getD 7) * msPerDay) meta sWrite).1 ≠ 0 ∧
      tok = signAccessToken user.id user.role ∧ sec = freshSecret ∧
      s₁ = (rotateWrite found.id (sha256 rtok) (sha256 freshSecret)
        (now + (env.refreshTokenExpDays.getD 7) * msPerDay) meta sWrite).2 := by
  simp only [refreshAt] at h
  split at h
  next hf => simp at h
  next found hf =>
    split at h
    next hu => simp at h
    next user hu =>
      split at h
      next hexp => simp at h
      next hexp =>
        split at h
        next hc => simp at h
        next hc =>
          rw [Prod.mk.injEq] at h
          obtain ⟨hres, hstore⟩ := h
          cases hres
          exact ⟨found, user, hf, hu, by omega, by simpa using hc, rfl, rfl,
            hstore.symm⟩

/-! ## Claim theorems -/

/-- C7: for every registration whose password does not meet the
minimum-strength policy (the handler's presence check), `register` fails
with InvalidInput (400) and the store is unchanged: no user is created and
no tokens are issued. -/
theorem register_password_policy
    (sha256 hashPw : String → String) (defaultRole : String) (env : Env)
    (now : Nat) (freshSecret : String) (req : RegisterReq) (s : Store)
    (h : passwordMeetsPolicy req.password = false) :
    register sha256 hashPw defaultRole env now freshSecret req s =
      (.failure 400 "Email, password, and name are required", s) := by
  have hp : req.password.isEmpty = true := by
    simpa [passwordMeetsPolicy] using h
  simp [register, hp]

theorem register_password_policy_witness :
    passwordMeetsPolicy "" = false ∧
    register shaT hashPwT "user" envNone 0 "sec"
        ⟨"b@x.com", "", "B", none, none⟩ storeA =
      (.failure 400 "Email, password, and name are required", storeA) :=
  ⟨rfl, register_password_policy shaT hashPwT "user" envNone 0 "sec" _ storeA rfl⟩

/-- C6: a login that fails because the email matches no user and a login
that fails because the password digest does not match return the
identical 401 InvalidCredentials result (same status, same message, same
unchanged store), so the two causes are indistinguishable to the
caller. -/
theorem login_failure_uniform
    (sha256 : String → String) (verifyPw : String → String → Bool) (env : Env)
    (now : Nat) (freshSecret : String) (req : LoginReq) (s : Store)
    (hEmail : req.email.isEmpty = false) (hPw : req.password.isEmpty = false) :
    (s.users.find? (fun v => v.email == req.email) = none →
      login sha256 verifyPw env now freshSecret req s =
        (.failure 401 "Invalid email or password", s)) ∧
    (∀ u, s.users.find? (fun v => v.email == req.email) = some u →
      verifyPw u.hashedPassword req.password = false →
      login sha256 verifyPw env now freshSecret req s =
        (.failure 401 "Invalid email or password", s)) := by
  constructor
  · intro hf
    simp [login, hEmail, hPw, hf]
  · intro u hf hv
    simp [login, hEmail, hPw, hf, hv]

theorem login_failure_uniform_witness :
    ("a@x.com" : String).isEmpty = false ∧ ("pw" : String).isEmpty = false ∧
    (storeA.users.find? (fun v => v.email == "nobody@x.com") = none →
      login shaT verifyPwT envNone 0 "sec" ⟨"nobody@x.com", "pw", none, none⟩ storeA =
        (.failure 401 "Invalid email or password", storeA)) ∧
    (∀ u, storeA.users.find? (fun v => v.email == "a@x.com") = some u →
      verifyPwT u.hashedPassword "bad" = false →
      login shaT verifyPwT envNone 0 "sec" ⟨"a@x.com", "bad", none, none⟩ storeA =
        (.failure 401 "Invalid email or password", storeA)) :=
  ⟨rfl, rfl,
   (login_failure_uniform shaT verifyPwT envNone 0 "sec"
      ⟨"nobody@x.com", "pw", none, none⟩ storeA rfl rfl).1,
   (login_failure_uniform shaT verifyPwT envNone 0 "sec"
      ⟨"a@x.com", "bad", none, none⟩ storeA rfl rfl).2⟩

/-- C5 counterexample: the uniqueness lookup is an exact
(case-sensitive) `findUnique` on the email string.  With `a@x.com`
already registered, registering `A@X.COM` — the same email up to case —
succeeds with 201 instead of failing with 409 Conflict. -/
theorem register_case_fold_cex :
    lowerStr "A@X.COM" = lowerStr "a@x.com" ∧
    userA ∈ storeA.users ∧ userA.email = "a@x.com" ∧
    (register shaT hashPwT "user" envNone 0 "sec"
        ⟨"A@X.COM", "pw2", "B", none, none⟩ storeA).1 =
      RegisterResult.success ⟨2, "user"⟩ "sec" 2 := by
  refine ⟨by decide, by simp [storeA], rfl, by decide⟩

/-- C5 amended: registering with an email already present — compared
exactly, i.e. case-sensitively — fails with Conflict; consequently, after
a successful registration, any further registration with the identical
email string fails with Conflict, so at most one registration per exact
email string succeeds. -/
theorem register_uniqueness_exact
    (sha256 hashPw : String → String) (defaultRole : String) (env : Env)
    (now : Nat) (freshSecret : String) (req : RegisterReq) (s : Store)
    (hPw : req.password.isEmpty = false) (hName : req.name.isEmpty = false) :
    ((req.email.isEmpty = false) → (∃ u ∈ s.users, u.email = req.email) →
      register sha256 hashPw defaultRole env now freshSecret req s =
        (.failure 409 "User already exists with the email", s)) ∧
    (∀ sha₂ hashPw₂ defaultRole₂ env₂ now₂ freshSecret₂ (req₂ : RegisterReq)
        tok sec uid s₁,
      register sha256 hashPw defaultRole env now freshSecret req s =
        (.success tok sec uid, s₁) →
      req₂.email = req.email → req₂.password.isEmpty = false →
      req₂.name.isEmpty = false →
      register sha₂ hashPw₂ defaultRole₂ env₂ now₂ freshSecret₂ req₂ s₁ =
        (.failure 409 "User already exists with the email", s₁)) := by
  constructor
  · intro hEmail hMem
    exact register_conflict_of_mem sha256 hashPw defaultRole env now freshSecret
      req s hEmail hPw hName hMem
  · intro sha₂ hashPw₂ defaultRole₂ env₂ now₂ freshSecret₂ req₂ tok sec uid s₁
      hSucc hEq hPw₂ hName₂
    by_cases hb : (req.email.isEmpty || req.password.isEmpty || req.name.isEmpty) = true
    · simp [register, hb] at hSucc
    · have hEmail : req.email.isEmpty = false := by
        rcases he : req.email.isEmpty with _ | _
        · rfl
        · exact absurd (by simp [he]) hb
      rcases hf : s.users.find? (fun v => v.email == req.email) with _ | w
      · have hStore : s₁.users =
            s.users ++ [mkUser hashPw defaultRole req s.nextUserId] := by
          simp only [register, hb, hf, Bool.false_eq_true, if_false] at hSucc
          have h2 := congrArg Prod.snd hSucc
          simp only [Prod.snd] at h2
          rw [← h2]
        apply register_conflict_of_mem sha₂ hashPw₂ defaultRole₂ env₂ now₂
          freshSecret₂ req₂ s₁ (by rw [hEq]; exact hEmail) hPw₂ hName₂
        refine ⟨mkUser hashPw defaultRole req s.nextUserId, ?_, ?_⟩
        · rw [hStore]
          exact List.mem_append_right _ (List.mem_singleton_self _)
        · rw [hEq]
          rfl
      · simp [register, hb, hf] at hSucc

theorem register_uniqueness_exact_witness :
    ("pw2" : String).isEmpty = false ∧ ("B" : String).isEmpty = false ∧
    ("a@x.com" : String).isEmpty = false ∧
    (∃ u ∈ storeA.users, u.email = "a@x.com") ∧
    register shaT hashPwT "user" envNone 0 "sec"
        ⟨"a@x.com", "pw2", "B", none, none⟩ storeA =
      (.failure 409 "User already exists with the email", storeA) :=
  ⟨rfl, rfl, rfl, ⟨userA, by simp [storeA], rfl⟩,
   (register_uniqueness_exact shaT hashPwT "user" envNone 0 "sec"
      ⟨"a@x.com", "pw2", "B", none, none⟩ storeA rfl rfl).1 rfl
     ⟨userA, by simp [storeA], rfl⟩⟩

/-- C4: the refresh secret is never persisted — in register, login and
refresh, the resulting Credential Store depends on the freshly minted
secret only through its SHA-256 digest: two secrets with the same digest
produce identical stores, so only the digest is ever written. -/
theorem refresh_secret_not_persisted
    (sha256 hashPw : String → String) (verifyPw : String → String → Bool)
    (defaultRole : String) (env : Env) (now : Nat) (sec₁ sec₂ : String)
    (regReq : RegisterReq) (loginReq : LoginReq) (rt : Option String)
    (meta : ReqMeta) (s : Store)
    (h : sha256 sec₁ = sha256 sec₂) :
    (register sha256 hashPw defaultRole env now sec₁ regReq s).2 =
      (register sha256 hashPw defaultRole env now sec₂ regReq s).2 ∧
    (login sha256 verifyPw env now sec₁ loginReq s).2 =
      (login sha256 verifyPw env now sec₂ loginReq s).2 ∧
    (refresh sha256 env now sec₁ rt meta s).2 =
      (refresh sha256 env now sec₂ rt meta s).2 := by
  refine ⟨?_, ?_, ?_⟩
  · by_cases hb : (regReq.email.isEmpty || regReq.password.isEmpty ||
        regReq.name.isEmpty) = true
    · simp [register, hb]
    · rcases hf : s.users.find? (fun v => v.email == regReq.email) with _ | w
      · simp [register, hb, hf, h]
      · simp [register, hb, hf]
  · by_cases hb : (loginReq.email.isEmpty || loginReq.password.isEmpty) = true
    · simp [login, hb]
    · rcases hf : s.users.find? (fun v => v.email == loginReq.email) with _ | w
      · simp [login, hb, hf]
      · by_cases hv : verifyPw w.hashedPassword loginReq.password = true
        · simp [login, hb, hf, hv, h]
        · simp [login, hb, hf, hv]
  · rcases rt with _ | tok
    · rfl
    · simp only [refresh, refreshAt]
      split
      · rfl
      · split
        · rfl
        · split
          · rfl
          · rw [h]
            split
            · rfl
            · rfl

theorem refresh_secret_not_persisted_witness :
    shaConst "s1" = shaConst "s2" ∧
    ((register shaConst hashPwT "user" envNone 0 "s1"
        ⟨"b@x.com", "pw", "B", none, none⟩ storeA).2 =
      (register shaConst hashPwT "user" envNone 0 "s2"
        ⟨"b@x.com", "pw", "B", none, none⟩ storeA).2 ∧
    (login shaConst verifyPwT envNone 0 "s1"
        ⟨"a@x.com", "pw", none, none⟩ storeA).2 =
      (login shaConst verifyPwT envNone 0 "s2"
        ⟨"a@x.com", "pw", none, none⟩ storeA).2 ∧
    (refresh shaConst envNone 0 "s1" (some "S0") metaT storeA).2 =
      (refresh shaConst envNone 0 "s2" (some "S0") metaT storeA).2) :=
  ⟨rfl, refresh_secret_not_persisted shaConst hashPwT verifyPwT "user" envNone 0
    "s1" "s2" ⟨"b@x.com", "pw", "B", none, none⟩ ⟨"a@x.com", "pw", none, none⟩
    (some "S0") metaT storeA rfl⟩

/-- C10: the access token issued by register always carries the fixed role
"user", whatever role the database stores for the new user, whereas login
and refresh sign the matched user's stored role. -/
theorem access_token_role_claims
    (sha256 hashPw : String → String) (verifyPw : String → String → Bool)
    (env : Env) (now : Nat) (freshSecret : String) :
    (∀ (defaultRole : String) (req : RegisterReq) (s : Store) tok sec uid s₁,
      register sha256 hashPw defaultRole env now freshSecret req s =
        (.success tok sec uid, s₁) → tok.role = "user") ∧
    (∀ (req : LoginReq) (s : Store) u tok sec uid s₁,
      s.users.find? (fun v => v.email == req.email) = some u →
      login sha256 verifyPw env now freshSecret req s =
        (.success tok sec uid, s₁) →
      tok = signAccessToken u.id u.role) ∧
    (∀ (rtok : String) (meta : ReqMeta) (sFind sWrite : Store) found u tok sec s₁,
      sFind.refreshTokens.find? (fun r =>
        r.tokenHash == sha256 rtok && r.revoked == false) = some found →
      sFind.users.find? (fun v => v.id == found.userId) = some u →
      refreshAt sha256 env now freshSecret (some rtok) meta sFind sWrite =
        (.success tok sec, s₁) →
      tok = signAccessToken u.id u.role) := by
  refine ⟨?_, ?_, ?_⟩
  · intro defaultRole req s tok sec uid s₁ hSucc
    obtain ⟨-, -, htok, -, -, -⟩ := register_success_inv sha256 hashPw
      defaultRole env now freshSecret req s tok sec uid s₁ hSucc
    rw [htok]
    rfl
  · intro req s u tok sec uid s₁ hf hSucc
    obtain ⟨-, u', hf', -, htok, -, -, -⟩ := login_success_inv sha256 verifyPw
      env now freshSecret req s tok sec uid s₁ hSucc
    rw [hf] at hf'
    injection hf' with hf'
    rw [htok, hf']
  · intro rtok meta sFind sWrite found u tok sec s₁ hf hu hSucc
    obtain ⟨found', u', hf', hu', -, -, htok, -, -⟩ := refreshAt_success_inv
      sha256 env now freshSecret rtok meta sFind sWrite tok sec s₁ hSucc
    rw [hf] at hf'
    injection hf' with hf'
    rw [← hf'] at hu'
    rw [hu] at hu'
    injection hu' with hu'
    rw [htok, hu']

/-- A refresh whose lookup finds no non-revoked matching record fails with
401 "Invalid refresh token" and writes nothing. -/
theorem refresh_invalid_of_find_none
    (sha256 : String → String) (env : Env) (now : Nat) (f S : String)
    (meta : ReqMeta) (sFind sWrite : Store)
    (h : sFind.refreshTokens.find? (fun r =>
      r.tokenHash == sha256 S && r.revoked == false) = none) :
    refreshAt sha256 env now f (some S) meta sFind sWrite =
      (.failure 401 "Invalid refresh token", sWrite) := by
  simp only [refreshAt, h]

theorem isInvalidToken_no_match :
    (RefreshResult.failure 401 "Invalid refresh token").isInvalidToken = true := by
  rfl

theorem isInvalidToken_lost_write :
    (RefreshResult.failure 401
      "Invalid or already rotated refresh token").isInvalidToken = true := by
  rfl

/-- After a logout that presented secret `rtok`, no non-revoked record
matching `rtok`'s digest remains. -/
theorem logout_find_none (sha256 : String → String) (rtok : String) (s : Store) :
    (logout sha256 (some rtok) s).2.refreshTokens.find? (fun r =>
      r.tokenHash == sha256 rtok && r.revoked == false) = none := by
  rw [List.find?_eq_none]
  intro r hr
  simp only [logout] at hr
  obtain ⟨a, ha, rfl⟩ := List.mem_map.mp hr
  by_cases hc : (a.tokenHash == sha256 rtok && a.revoked == false) = true
  · rw [if_pos hc]
    simp
  · rw [if_neg hc]
    exact hc

/-- C3: logout is idempotent — logout always returns 200 success whether a
record matches or not; after logging out a secret, every record matching
its digest is revoked; a second logout with the same secret also returns
success; and after either call, refresh with that secret fails with
InvalidToken. -/
theorem logout_idempotent (sha256 : String → String) (rtok : String) (s : Store) :
    (∀ (o : Option String) (s' : Store),
      (logout sha256 o s').1 = (200, "Logged out successfully")) ∧
    (∀ r ∈ (logout sha256 (some rtok) s).2.refreshTokens,
      r.tokenHash = sha256 rtok → r.revoked = true) ∧
    (∀ env now f meta,
      ((refresh sha256 env now f (some rtok) meta
        (logout sha256 (some rtok) s).2).1).isInvalidToken = true) ∧
    (∀ env now f meta,
      ((refresh sha256 env now f (some rtok) meta
        (logout sha256 (some rtok)
          (logout sha256 (some rtok) s).2).2).1).isInvalidToken = true) := by
  refine ⟨fun o s' => rfl, ?_, ?_, ?_⟩
  · intro r hr
    simp only [logout] at hr
    obtain ⟨a, ha, rfl⟩ := List.mem_map.mp hr
    by_cases hc : (a.tokenHash == sha256 rtok && a.revoked == false) = true
    · rw [if_pos hc]
      intro _
      rfl
    · rw [if_neg hc]
      intro hhash
      rcases hrev : a.revoked with _ | _
      · exact absurd (by simp [hhash, hrev]) hc
      · rfl
  · intro env now f meta
    rw [show refresh sha256 env now f (some rtok) meta
        (logout sha256 (some rtok) s).2 =
      refreshAt sha256 env now f (some rtok) meta
        (logout sha256 (some rtok) s).2 (logout sha256 (some rtok) s).2 from rfl]
    rw [refresh_invalid_of_find_none sha256 env now f rtok meta _ _
      (logout_find_none sha256 rtok s)]
    rfl
  · intro env now f meta
    rw [show refresh sha256 env now f (some rtok) meta
        (logout sha256 (some rtok) (logout sha256 (some rtok) s).2).2 =
      refreshAt sha256 env now f (some rtok) meta
        (logout sha256 (some rtok) (logout sha256 (some rtok) s).2).2
        (logout sha256 (some rtok) (logout sha256 (some rtok) s).2).2 from rfl]
    rw [refresh_invalid_of_find_none sha256 env now f rtok meta _ _
      (logout_find_none sha256 rtok (logout sha256 (some rtok) s).2)]
    rfl

theorem logout_idempotent_witness :
    (logout shaT (some "S0") storeR).1 = (200, "Logged out successfully") ∧
    (∀ r ∈ (logout shaT (some "S0") storeR).2.refreshTokens,
      r.tokenHash = shaT "S0" → r.revoked = true) ∧
    ((refresh shaT envNone 500 "S1" (some "S0") metaT
      (logout shaT (some "S0") storeR).2).1).isInvalidToken = true ∧
    ((refresh shaT envNone 500 "S1" (some "S0") metaT
      (logout shaT (some "S0")
        (logout shaT (some "S0") storeR).2).2).1).isInvalidToken = true :=
  ⟨(logout_idempotent shaT "S0" storeR).1 (some "S0") storeR,
   (logout_idempotent shaT "S0" storeR).2.1,
   (logout_idempotent shaT "S0" storeR).2.2.1 envNone 500 "S1" metaT,
   (logout_idempotent shaT "S0" storeR).2.2.2 envNone 500 "S1" metaT⟩

/-- Sequential version of `refresh_invalid_of_find_none`. -/
theorem refresh_invalid_seq
    (sha256 : String → String) (env : Env) (now : Nat) (f S : String)
    (meta : ReqMeta) (s : Store)
    (h : s.refreshTokens.find? (fun r =>
      r.tokenHash == sha256 S && r.revoked == false) = none) :
    refresh sha256 env now f (some S) meta s =
      (.failure 401 "Invalid refresh token", s) :=
  refresh_invalid_of_find_none sha256 env now f S meta s s h

/-- C2: when the presented secret matches a non-revoked record whose
expiry has passed, refresh fails with 401 Expired and revokes that
record, and every subsequent refresh with the same secret fails with
InvalidToken. -/
theorem expired_refresh_handling
    (sha256 : String → String) (env : Env) (now : Nat) (S f : String)
    (meta : ReqMeta) (s : Store) (ex : RefreshTokenRecord) (u : User)
    (hf : s.refreshTokens.find? (fun r =>
      r.tokenHash == sha256 S && r.revoked == false) = some ex)
    (hu : s.users.find? (fun v => v.id == ex.userId) = some u)
    (hexp : ex.expiresAt ≤ now)
    (hActive : (s.refreshTokens.filter (fun r =>
      r.tokenHash == sha256 S && r.revoked == false)).length ≤ 1) :
    (refresh sha256 env now f (some S) meta s).1 =
      .failure 401 "Refresh token expired" ∧
    (∀ r ∈ (refresh sha256 env now f (some S) meta s).2.refreshTokens,
      r.id = ex.id → r.revoked = true) ∧
    (∀ now₂ f₂ meta₂,
      (refresh sha256 env now₂ f₂ (some S) meta₂
        (refresh sha256 env now f (some S) meta s).2).1 =
        .failure 401 "Invalid refresh token" ∧
      ((refresh sha256 env now₂ f₂ (some S) meta₂
        (refresh sha256 env now f (some S) meta s).2).1).isInvalidToken =
        true) := by
  have hstep : refresh sha256 env now f (some S) meta s =
      (.failure 401 "Refresh token expired",
       { s with refreshTokens := s.refreshTokens.map (fun r =>
           if r.id == ex.id then { r with revoked := true } else r) }) := by
    simp only [refresh, refreshAt, hf, hu]
    rw [if_pos hexp]
  have hstep2 : (refresh sha256 env now f (some S) meta s).2 =
      { s with refreshTokens := s.refreshTokens.map (fun r =>
          if r.id == ex.id then { r with revoked := true } else r) } := by
    rw [hstep]
  have hexmem : ex ∈ s.refreshTokens := List.mem_of_find?_eq_some hf
  have hexpred := List.find?_some hf
  have hnone : (refresh sha256 env now f (some S) meta s).2.refreshTokens.find?
      (fun r => r.tokenHash == sha256 S && r.revoked == false) = none := by
    rw [hstep2]
    rw [List.find?_eq_none]
    intro r hr
    obtain ⟨a, ha, rfl⟩ := List.mem_map.mp hr
    by_cases hc : (a.id == ex.id) = true
    · rw [if_pos hc]
      simp
    · rw [if_neg hc]
      intro hpred
      have haf : a ∈ s.refreshTokens.filter (fun r =>
          r.tokenHash == sha256 S && r.revoked == false) :=
        List.mem_filter.mpr ⟨ha, hpred⟩
      have hef : ex ∈ s.refreshTokens.filter (fun r =>
          r.tokenHash == sha256 S && r.revoked == false) :=
        List.mem_filter.mpr ⟨hexmem, hexpred⟩
      have hae : a = ex := eq_of_mem_of_length_le_one hActive haf hef
      rw [hae] at hc
      simp at hc
  refine ⟨by rw [hstep], ?_, ?_⟩
  · intro r hr
    rw [hstep2] at hr
    obtain ⟨a, ha, rfl⟩ := List.mem_map.mp hr
    by_cases hc : (a.id == ex.id) = true
    · rw [if_pos hc]
      intro _
      rfl
    · rw [if_neg hc]
      intro hid
      exact absurd (by simp [hid]) hc
  · intro now₂ f₂ meta₂
    have h2 := refresh_invalid_seq sha256 env now₂ f₂ S meta₂ _ hnone
    exact ⟨by rw [h2], by rw [h2]; rfl⟩

theorem expired_refresh_handling_witness :
    (refresh shaT envNone 1000 "S1" (some "S0") metaT storeR).1 =
      .failure 401 "Refresh token expired" ∧
    ((refresh shaT envNone 1500 "S2" (some "S0") metaT
      (refresh shaT envNone 1000 "S1" (some "S0") metaT storeR).2).1).isInvalidToken =
      true :=
  ⟨(expired_refresh_handling shaT envNone 1000 "S0" "S1" metaT storeR recA userA
      (by decide) (by decide) (by decide) (by decide)).1,
   ((expired_refresh_handling shaT envNone 1000 "S0" "S1" metaT storeR recA userA
      (by decide) (by decide) (by decide) (by decide)).2.2 1500 "S2" metaT).2⟩

/-- C1: refresh-secret single use — once `Refresh(S)` has succeeded,
every subsequent `Refresh(S)` fails with InvalidToken; moreover the
rotation step is the single conditional write keyed on the record's id,
its current token hash and `revoked = false`, and whenever that write
affects zero records the refresh fails with InvalidToken. -/
theorem refresh_secret_single_use
    (sha256 : String → String) (env : Env) (now : Nat) (S S' : String)
    (meta : ReqMeta) (s s₁ : Store) (tok : AccessToken) (retSec : String)
    (hActive : (s.refreshTokens.filter (fun r =>
      r.tokenHash == sha256 S && r.revoked == false)).length ≤ 1)
    (hne : sha256 S' ≠ sha256 S)
    (h1 : refresh sha256 env now S' (some S) meta s =
      (.success tok retSec, s₁)) :
    (∀ now₂ f₂ meta₂,
      (refresh sha256 env now₂ f₂ (some S) meta₂ s₁).1 =
        .failure 401 "Invalid refresh token" ∧
      ((refresh sha256 env now₂ f₂ (some S) meta₂ s₁).1).isInvalidToken =
        true) ∧
    (∀ (sFind sWrite : Store) (now₂ : Nat) (f₂ : String) (meta₂ : ReqMeta)
        (ex : RefreshTokenRecord) (u : User),
      sFind.refreshTokens.find? (fun r =>
        r.tokenHash == sha256 S && r.revoked == false) = some ex →
      sFind.users.find? (fun v => v.id == ex.userId) = some u →
      ¬ ex.expiresAt ≤ now₂ →
      (sWrite.refreshTokens.filter (fun r =>
        r.id == ex.id && r.tokenHash == sha256 S &&
          r.revoked == false)).length = 0 →
      (refreshAt sha256 env now₂ f₂ (some S) meta₂ sFind sWrite).1 =
        .failure 401 "Invalid or already rotated refresh token" ∧
      ((refreshAt sha256 env now₂ f₂ (some S) meta₂
        sFind sWrite).1).isInvalidToken = true) := by
  constructor
  · obtain ⟨found, user, hf, hu, hexp, hcnt, htok, hsec, hstore⟩ :=
      refreshAt_success_inv sha256 env now S' S meta s s tok retSec s₁ h1
    have hexmem : found ∈ s.refreshTokens := List.mem_of_find?_eq_some hf
    have hexpred := List.find?_some hf
    obtain ⟨hh, hv⟩ := Bool.and_eq_true _ _ |>.mp hexpred
    have hnone : s₁.refreshTokens.find? (fun r =>
        r.tokenHash == sha256 S && r.revoked == false) = none := by
      rw [hstore]
      simp only [rotateWrite]
      rw [List.find?_eq_none]
      intro r hr
      obtain ⟨a, ha, rfl⟩ := List.mem_map.mp hr
      by_cases hc : (a.id == found.id && a.tokenHash == sha256 S &&
          a.revoked == false) = true
      · rw [if_pos hc]
        have hnb : (sha256 S' == sha256 S) = false :=
          beq_eq_false_iff_ne.mpr hne
        simp [hnb]
      · rw [if_neg hc]
        intro hpred
        have haf : a ∈ s.refreshTokens.filter (fun r =>
            r.tokenHash == sha256 S && r.revoked == false) :=
          List.mem_filter.mpr ⟨ha, hpred⟩
        have hef : found ∈ s.refreshTokens.filter (fun r =>
            r.tokenHash == sha256 S && r.revoked == false) :=
          List.mem_filter.mpr ⟨hexmem, hexpred⟩
        have hae : a = found := eq_of_mem_of_length_le_one hActive haf hef
        rw [hae] at hc
        exact hc (by simp [hh, hv])
    intro now₂ f₂ meta₂
    have h2 := refresh_invalid_seq sha256 env now₂ f₂ S meta₂ _ hnone
    exact ⟨by rw [h2], by rw [h2]; rfl⟩
  · intro sFind sWrite now₂ f₂ meta₂ ex u hf hu hexp hzero
    have hc : ((rotateWrite ex.id (sha256 S) (sha256 f₂)
        (now₂ + (env.refreshTokenExpDays.getD 7) * msPerDay) meta₂
        sWrite).1 == 0) = true := by
      simp only [rotateWrite]
      rw [hzero]
      rfl
    have hstep : refreshAt sha256 env now₂ f₂ (some S) meta₂ sFind sWrite =
        (.failure 401 "Invalid or already rotated refresh token",
         (rotateWrite ex.id (sha256 S) (sha256 f₂)
           (now₂ + (env.refreshTokenExpDays.getD 7) * msPerDay) meta₂
           sWrite).2) := by
      simp only [refreshAt, hf, hu]
      rw [if_neg hexp]
      rw [if_pos hc]
    exact ⟨by rw [hstep], by rw [hstep]; rfl⟩

/-- On a store holding exactly one refresh-token record, a refresh that
presents that record's secret before its expiry succeeds and rewrites the
record in place: new digest, expiry `now` plus the full configured TTL,
and the caller's request metadata. -/
theorem refresh_single_record_success
    (sha256 : String → String) (env : Env) (now : Nat) (f S : String)
    (meta : ReqMeta) (u : User) (r0 : RefreshTokenRecord) (s : Store)
    (hs : s.refreshTokens = [r0]) (husers : s.users = [u])
    (huid : r0.userId = u.id) (hrev : r0.revoked = false)
    (hhash : r0.tokenHash = sha256 S) (hexp : now < r0.expiresAt) :
    refresh sha256 env now f (some S) meta s =
      (.success (signAccessToken u.id u.role) f,
       { s with refreshTokens := [{ r0 with
           tokenHash := sha256 f,
           expiresAt := now + (env.refreshTokenExpDays.getD 7) * msPerDay,
           ip := meta.ip, userAgent := meta.userAgent }] }) := by
  have hpred : (r0.tokenHash == sha256 S && r0.revoked == false) = true := by
    simp [hhash, hrev]
  have hf : s.refreshTokens.find? (fun r =>
      r.tokenHash == sha256 S && r.revoked == false) = some r0 := by
    rw [hs]
    exact List.find?_cons_of_pos _ hpred
  have hu : s.users.find? (fun v => v.id == r0.userId) = some u := by
    rw [husers]
    exact List.find?_cons_of_pos _ (by simp [huid])
  have hcond : (r0.id == r0.id && r0.tokenHash == sha256 S &&
      r0.revoked == false) = true := by
    simp [hhash, hrev]
  simp only [refresh, refreshAt, hf, hu]
  rw [if_neg (by omega : ¬ r0.expiresAt ≤ now)]
  simp only [rotateWrite, hs, List.filter_cons, List.map_cons, List.map_nil,
    hcond, if_pos hcond]
  rfl

/-- C8 counterexample: with no TTL configured, a login writes a refresh
record expiring 7 days after the operation, not 30 days as claimed (the
handler defaults `REFRESH_TOKEN_EXP_DAYS` to 7 in login and refresh, and
to 30 only in register). -/
theorem refresh_ttl_default_cex :
    (login shaT verifyPwT ⟨none⟩ 0 "sec"
      ⟨"a@x.com", "pw", none, none⟩ storeA).2.refreshTokens =
      [⟨1, "h:sec", 1, 7 * msPerDay, false, none, none⟩] ∧
    (7 * msPerDay : Nat) ≠ 30 * msPerDay := by
  exact ⟨by decide, by decide⟩

/-- C8 amended: when no TTL is configured, register stamps the newly
created refresh record with an expiry 30 days from the operation, while
login and refresh stamp 7-day expiries. -/
theorem refresh_ttl_defaults
    (sha256 hashPw : String → String) (verifyPw : String → String → Bool)
    (defaultRole : String) (now : Nat) (f : String) :
    (∀ (req : RegisterReq) (s : Store) tok sec uid s₁,
      register sha256 hashPw defaultRole ⟨none⟩ now f req s =
        (.success tok sec uid, s₁) →
      s₁.refreshTokens = s.refreshTokens ++
        [{ id := s.nextTokenId, tokenHash := sha256 f,
           userId := s.nextUserId, expiresAt := now + 30 * msPerDay,
           revoked := false, ip := req.ip, userAgent := req.userAgent }]) ∧
    (∀ (req : LoginReq) (s : Store) tok sec uid s₁,
      login sha256 verifyPw ⟨none⟩ now f req s = (.success tok sec uid, s₁) →
      ∃ u, s.users.find? (fun v => v.email == req.email) = some u ∧
        s₁.refreshTokens = s.refreshTokens ++
          [{ id := s.nextTokenId, tokenHash := sha256 f, userId := u.id,
             expiresAt := now + 7 * msPerDay, revoked := false,
             ip := req.ip, userAgent := req.userAgent }]) ∧
    (∀ (S : String) (meta : ReqMeta) (u : User) (r0 : RefreshTokenRecord)
        (s : Store),
      s.refreshTokens = [r0] → s.users = [u] → r0.userId = u.id →
      r0.revoked = false → r0.tokenHash = sha256 S → now < r0.expiresAt →
      (refresh sha256 ⟨none⟩ now f (some S) meta s).2.refreshTokens =
        [{ r0 with
            tokenHash := sha256 f, expiresAt := now + 7 * msPerDay,
            ip := meta.ip, userAgent := meta.userAgent }]) := by
  refine ⟨?_, ?_, ?_⟩
  · intro req s tok sec uid s₁ h
    obtain ⟨-, -, -, -, -, hstore⟩ := register_success_inv sha256 hashPw
      defaultRole ⟨none⟩ now f req s tok sec uid s₁ h
    rw [hstore]
    rfl
  · intro req s tok sec uid s₁ h
    obtain ⟨-, u, hf, -, -, -, -, hstore⟩ := login_success_inv sha256 verifyPw
      ⟨none⟩ now f req s tok sec uid s₁ h
    exact ⟨u, hf, by rw [hstore]; rfl⟩
  · intro S meta u r0 s hs husers huid hrev hhash hexp
    rw [refresh_single_record_success sha256 ⟨none⟩ now f S meta u r0 s
      hs husers huid hrev hhash hexp]
    rfl

theorem refresh_ttl_defaults_witness :
    (register shaT hashPwT "user" ⟨none⟩ 0 "sec"
      ⟨"b@x.com", "pw", "B", none, none⟩ storeA).2.refreshTokens =
      storeA.refreshTokens ++
        [⟨1, "h:sec", 2, 0 + 30 * msPerDay, false, none, none⟩] ∧
    (∃ u, storeA.users.find? (fun v => v.email == "a@x.com") = some u ∧
      (login shaT verifyPwT ⟨none⟩ 0 "sec"
        ⟨"a@x.com", "pw", none, none⟩ storeA).2.refreshTokens =
        storeA.refreshTokens ++
          [⟨1, "h:sec", u.id, 0 + 7 * msPerDay, false, none, none⟩]) ∧
    (refresh shaT ⟨none⟩ 500 "sec" (some "S0") metaT storeR).2.refreshTokens =
      [{ recA with
          tokenHash := shaT "sec", expiresAt := 500 + 7 * msPerDay,
          ip := none, userAgent := none }] := by
  refine ⟨?_, ?_, ?_⟩
  · exact (refresh_ttl_defaults shaT hashPwT verifyPwT "user" 0 "sec").1
      ⟨"b@x.com", "pw", "B", none, none⟩ storeA ⟨2, "user"⟩ "sec" 2
      (register shaT hashPwT "user" ⟨none⟩ 0 "sec"
        ⟨"b@x.com", "pw", "B", none, none⟩ storeA).2 (by decide)
  · exact (refresh_ttl_defaults shaT hashPwT verifyPwT "user" 0 "sec").2.1
      ⟨"a@x.com", "pw", none, none⟩ storeA ⟨1, "admin"⟩ "sec" 1
      (login shaT verifyPwT ⟨none⟩ 0 "sec"
        ⟨"a@x.com", "pw", none, none⟩ storeA).2 (by decide)
  · have h500 : (500 : Nat) < recA.expiresAt := by decide
    exact (refresh_ttl_defaults shaT hashPwT verifyPwT "user" 500 "sec").2.2
      "S0" metaT userA recA storeR rfl rfl (by decide) (by decide)
      (by decide) h500

/-- C9: sliding refresh expiry — every successful refresh resets the
matched record's expiry to the call time plus the full configured TTL,
so a chain of refreshes spaced less than one TTL apart succeeds forever:
after `n` steps the store holds the `n`-th chain record, and for every
bound `B` some finite chain pushes the stored expiry beyond `B` — the
chain's total lifetime has no absolute bound. -/
theorem sliding_refresh_expiry
    (sha256 : String → String) (env : Env) (secrets : Nat → String)
    (t0 d : Nat) (meta : ReqMeta) (u : User) (r0 : RefreshTokenRecord)
    (s : Store)
    (hs : s.refreshTokens = [r0]) (husers : s.users = [u])
    (huid : r0.userId = u.id) (hrev : r0.revoked = false)
    (hhash : r0.tokenHash = sha256 (secrets 0))
    (ht0 : t0 < r0.expiresAt) (hd : 0 < d)
    (hT : d < (env.refreshTokenExpDays.getD 7) * msPerDay) :
    (∀ now f, now < r0.expiresAt →
      (refresh sha256 env now f (some (secrets 0)) meta s).2.refreshTokens =
        [{ r0 with
            tokenHash := sha256 f,
            expiresAt := now + (env.refreshTokenExpDays.getD 7) * msPerDay,
            ip := meta.ip, userAgent := meta.userAgent }]) ∧
    (∀ n, refreshChain sha256 env secrets t0 d meta n s =
      some { s with refreshTokens :=
        [chainRecord sha256 env secrets t0 d meta r0 n] }) ∧
    (∀ B, ∃ n s', refreshChain sha256 env secrets t0 d meta n s = some s' ∧
      ∀ r ∈ s'.refreshTokens, B < r.expiresAt) := by
  have hchain : ∀ n, refreshChain sha256 env secrets t0 d meta n s =
      some { s with refreshTokens :=
        [chainRecord sha256 env secrets t0 d meta r0 n] } := by
    intro n
    induction n with
    | zero =>
      show some s = _
      rw [show chainRecord sha256 env secrets t0 d meta r0 0 = r0 from rfl,
        ← hs]
    | succ n ih =>
      have huid' : (chainRecord sha256 env secrets t0 d meta r0 n).userId =
          u.id := by
        cases n <;> simpa [chainRecord] using huid
      have hrev' : (chainRecord sha256 env secrets t0 d meta r0 n).revoked =
          false := by
        cases n <;> simpa [chainRecord] using hrev
      have hhash' : (chainRecord sha256 env secrets t0 d meta r0 n).tokenHash =
          sha256 (secrets n) := by
        cases n with
        | zero => exact hhash
        | succ m => simp [chainRecord]
      have hexp' : t0 + n * d <
          (chainRecord sha256 env secrets t0 d meta r0 n).expiresAt := by
        cases n with
        | zero => simpa [chainRecord] using ht0
        | succ m =>
          simp only [chainRecord]
          have hmd : (m + 1) * d = m * d + d := by ring
          omega
      have hstep := refresh_single_record_success sha256 env (t0 + n * d)
        (secrets (n + 1)) (secrets n) meta u
        (chainRecord sha256 env secrets t0 d meta r0 n)
        { s with refreshTokens :=
          [chainRecord sha256 env secrets t0 d meta r0 n] }
        rfl (by simpa using husers) huid' hrev' hhash' hexp'
      show (match refreshChain sha256 env secrets t0 d meta n s with
        | none => none
        | some s' =>
          match refresh sha256 env (t0 + n * d) (secrets (n + 1))
              (some (secrets n)) meta s' with
          | (.success _ _, s₂) => some s₂
          | _ => none) = _
      rw [ih]
      show (match refresh sha256 env (t0 + n * d) (secrets (n + 1))
          (some (secrets n)) meta { s with refreshTokens :=
            [chainRecord sha256 env secrets t0 d meta r0 n] } with
        | (.success _ _, s₂) => some s₂
        | _ => none) = _
      rw [hstep]
      cases n <;> rfl
  refine ⟨?_, hchain, ?_⟩
  · intro now f hlt
    rw [refresh_single_record_success sha256 env now f (secrets 0) meta u r0 s
      hs husers huid hrev hhash hlt]
  · intro B
    refine ⟨B + 1, _, hchain (B + 1), ?_⟩
    intro r hr
    have hr' : r = chainRecord sha256 env secrets t0 d meta r0 (B + 1) := by
      simpa using hr
    rw [hr']
    simp only [chainRecord]
    have h1 : B ≤ B * d := Nat.le_mul_of_pos_right B hd
    omega

theorem refresh_secret_single_use_witness :
    (refresh shaT envNone 100 "S2" (some "S0") metaT
      (refresh shaT envNone 0 "S1" (some "S0") metaT storeR).2).1 =
      RefreshResult.failure 401 "Invalid refresh token" ∧
    (refreshAt shaT envNone 100 "S2" (some "S0") metaT storeR
      (refresh shaT envNone 0 "S1" (some "S0") metaT storeR).2).1 =
      RefreshResult.failure 401 "Invalid or already rotated refresh token" :=
  ⟨((refresh_secret_single_use shaT envNone 0 "S0" "S1" metaT storeR
      (refresh shaT envNone 0 "S1" (some "S0") metaT storeR).2
      ⟨1, "admin"⟩ "S1" (by decide) (by decide) (by decide)).1
      100 "S2" metaT).1,
   ((refresh_secret_single_use shaT envNone 0 "S0" "S1" metaT storeR
      (refresh shaT envNone 0 "S1" (some "S0") metaT storeR).2
      ⟨1, "admin"⟩ "S1" (by decide) (by decide) (by decide)).2
      storeR (refresh shaT envNone 0 "S1" (some "S0") metaT storeR).2
      100 "S2" metaT recA userA
      (by decide) (by decide) (by decide) (by decide)).1⟩

theorem sliding_refresh_expiry_witness :
    refreshChain shaT envNone chainSecretsW 500 1 metaT 2 storeR =
      some { storeR with refreshTokens :=
        [chainRecord shaT envNone chainSecretsW 500 1 metaT recA 2] } ∧
    (refresh shaT envNone 600 "S9" (some (chainSecretsW 0)) metaT
      storeR).2.refreshTokens =
      [{ recA with
          tokenHash := shaT "S9",
          expiresAt := 600 + (envNone.refreshTokenExpDays.getD 7) * msPerDay,
          ip := metaT.ip, userAgent := metaT.userAgent }] :=
  ⟨(sliding_refresh_expiry shaT envNone chainSecretsW 500 1 metaT userA recA
      storeR rfl rfl (by decide) (by decide) (by decide) (by decide)
      (by decide) (by decide)).2.1 2,
   (sliding_refresh_expiry shaT envNone chainSecretsW 500 1 metaT userA recA
      storeR rfl rfl (by decide) (by decide) (by decide) (by decide)
      (by decide) (by decide)).1 600 "S9" (by decide)⟩

theorem access_token_role_claims_witness :
    (AccessToken.mk 2 "user").role = "user" ∧
    AccessToken.mk 1 "admin" = signAccessToken userA.id userA.role ∧
    AccessToken.mk 1 "admin" = signAccessToken userA.id userA.role :=
  ⟨(access_token_role_claims shaT hashPwT verifyPwT envNone 0 "sec").1
      "admin" ⟨"b@x.com", "pw", "B", none, none⟩ storeA ⟨2, "user"⟩ "sec" 2
      (register shaT hashPwT "admin" envNone 0 "sec"
        ⟨"b@x.com", "pw", "B", none, none⟩ storeA).2 (by decide),
   (access_token_role_claims shaT hashPwT verifyPwT envNone 0 "sec").2.1
      ⟨"a@x.com", "pw", none, none⟩ storeA userA ⟨1, "admin"⟩ "sec" 1
      (login shaT verifyPwT envNone 0 "sec"
        ⟨"a@x.com", "pw", none, none⟩ storeA).2 (by decide) (by decide),
   (access_token_role_claims shaT hashPwT verifyPwT envNone 0 "sec").2.2
      "S0" metaT storeR storeR recA userA ⟨1, "admin"⟩ "sec"
      (refreshAt shaT envNone 0 "sec" (some "S0") metaT storeR storeR).2
      (by decide) (by decide) (by decide)⟩

end AuthCore
